import Mathlib

/-!
Shallow embedding of the client-side file/category synchronization and
session-gated action model of the Holdit front-end
(src/components/FileUpload.tsx, src/components/FileList.tsx,
src/components/PasswordManager.tsx, src/pages/Dashboard.tsx).

Remote stores are modelled by explicit parameters describing which remote
calls fail; React state updates are modelled by explicit state passing.
-/

namespace Holdit

/-! ## FileList.tsx : categories and the cached file list -/

/-- The three file categories of `FileList.tsx` (`type FileCategory`). -/
inductive FileCategory where
  | documentos
  | imagenes
  | videos
deriving DecidableEq, Repr

/-- `imageExtensions` table from `getFileCategory` in FileList.tsx. -/
def imageExtensions : List String :=
  ["jpg", "jpeg", "png", "gif", "webp", "svg", "bmp", "ico"]

/-- `videoExtensions` table from `getFileCategory` in FileList.tsx. -/
def videoExtensions : List String :=
  ["mp4", "avi", "mov", "mkv", "wmv", "flv", "webm", "m4v"]

/-- `documentExtensions` table from `getFileCategory` in FileList.tsx. -/
def documentExtensions : List String :=
  ["pdf", "doc", "docx", "txt", "xls", "xlsx", "ppt", "pptx", "odt", "rtf", "csv"]

/-- JS `String.prototype.split('.')` on the character sequence: splits at
every `'.'`, keeping empty pieces, and `"".split('.')` is `[""]`. -/
def splitOnDot : List Char → List (List Char)
  | [] => [[]]
  | c :: cs =>
      match splitOnDot cs with
      | [] => if c = '.' then [[], []] else [[c]]
      | r :: rs => if c = '.' then [] :: r :: rs else (c :: r) :: rs

/-- JS `String.prototype.toLowerCase` as used here: the extensions compared
against are ASCII, so the ASCII `Char.toLower` mapping over the characters
is the relevant behaviour. -/
def jsToLower (s : String) : String :=
  ⟨s.data.map Char.toLower⟩

/-- `fileName.split('.').pop()?.toLowerCase()` followed by the `ext || ''`
normalisation: the lowercased text after the last dot (JS `split` on a
non-empty separator always yields a non-empty array, so `pop` is total;
a falsy `""` result is replaced by `''`, which is the same string). -/
def lowerExt (fileName : String) : String :=
  jsToLower ⟨(splitOnDot fileName.data).getLastD []⟩

/-- `getFileCategory` from FileList.tsx: membership tests against the three
extension tables, in source order, with `documentos` as the default. -/
def getFileCategory (fileName : String) : FileCategory :=
  let ext := lowerExt fileName
  if imageExtensions.contains ext then .imagenes
  else if videoExtensions.contains ext then .videos
  else if documentExtensions.contains ext then .documentos
  else .documentos

/-- `interface FileItem` from FileList.tsx. -/
structure FileItem where
  name : String
  size : Nat
  created_at : String
  path : String
  category : FileCategory
deriving DecidableEq, Repr

/-- The active tab of FileList.tsx: `'todos'` or one of the categories
(`activeCategory : FileCategory | 'todos'`); `none` is `'todos'`. -/
abbrev ActiveCategory : Type := Option FileCategory

/-- `getCategoryCount` from FileList.tsx:
`files.filter(f => f.category === category).length`. -/
def getCategoryCount (files : List FileItem) (category : FileCategory) : Nat :=
  (files.filter (fun f => f.category = category)).length

/-- `filteredFiles` from FileList.tsx: `activeCategory === 'todos' ? files :
files.filter(f => f.category === activeCategory)`. -/
def filteredFiles (files : List FileItem) (activeCategory : ActiveCategory) :
    List FileItem :=
  match activeCategory with
  | none => files
  | some c => files.filter (fun f => f.category = c)

/-- The toast shown by `handleDelete` in FileList.tsx. -/
inductive DeleteNotice where
  | deleted (name : String)
  | deleteError
deriving DecidableEq, Repr

/-- Result of `handleDelete`: the new `files` state and the toast. -/
structure DeleteOutcome where
  files : List FileItem
  notice : DeleteNotice
deriving DecidableEq, Repr

/-- `handleDelete` from FileList.tsx. `removeFails` tells whether the remote
`supabase.storage.remove([file.path])` call rejects or returns an error: in
that case the `catch` branch shows the error toast and `setFiles` is never
reached; otherwise `setFiles(files.filter(f => f.path !== file.path))` runs
and the success toast is shown. -/
def handleDelete (files : List FileItem) (file : FileItem)
    (removeFails : Bool) : DeleteOutcome :=
  if removeFails then
    { files := files, notice := .deleteError }
  else
    { files := files.filter (fun f => f.path ≠ file.path)
      notice := .deleted file.name }

/-! ## FileUpload.tsx : the upload coordinator -/

/-- The remote key synthesized in `handleFiles` of FileUpload.tsx:
`` `${user.id}/${Date.now()}-${file.name}` `` where `ts` is the
`Date.now()` sample taken for this file (epoch milliseconds). -/
def uploadKey (uid : String) (ts : Nat) (name : String) : String :=
  uid ++ "/" ++ Nat.repr ts ++ "-" ++ name

/-- A local file handle of an upload batch together with the `Date.now()`
sample observed when its key was synthesized: `(ts, name)`. -/
abbrev BatchFile : Type := Nat × String

/-- The keys of all puts submitted for a batch
(`Array.from(files).map(file => ...)` in `handleFiles`). -/
def batchKeys (uid : String) (files : List BatchFile) : List String :=
  files.map (fun f => uploadKey uid f.1 f.2)

/-- Terminal outcome of `handleFiles` in FileUpload.tsx. -/
inductive UploadResult where
  | noFiles
  | authError
  | uploaded (count : Nat)
  | uploadFailed
deriving DecidableEq, Repr

/-- Observable effects of one `handleFiles` run: the keys of the puts that
were submitted to the store, the terminal toast, and whether
`onUploadComplete?.()` was invoked. -/
structure UploadOutcome where
  puts : List String
  result : UploadResult
  notified : Bool
deriving DecidableEq, Repr

/-- `handleFiles` from FileUpload.tsx. `hasSession` is the result of the
`supabase.auth.getSession()` check; `putFails k` tells whether the
`supabase.storage.upload` call for key `k` errors. An empty `FileList`
returns before anything happens; a missing session shows the
authentication toast and returns before any put; otherwise all puts are
submitted concurrently and awaited jointly (`Promise.all`): if every put
succeeds the success toast shows the count and `onUploadComplete?.()` is
invoked; if any put fails control reaches the `catch` branch, which only
shows the error toast. -/
def handleFiles (uid : String) (hasSession : Bool) (files : List BatchFile)
    (putFails : String → Bool) : UploadOutcome :=
  if files.isEmpty then
    { puts := [], result := .noFiles, notified := false }
  else if !hasSession then
    { puts := [], result := .authError, notified := false }
  else
    let keys := batchKeys uid files
    if keys.any putFails then
      { puts := keys, result := .uploadFailed, notified := false }
    else
      { puts := keys, result := .uploaded keys.length, notified := true }

/-! ## Dashboard.tsx : the session gate -/

/-- A Supabase session as far as Dashboard.tsx consumes it: it carries the
authenticated user (`session?.user`). The user is identified by its id. -/
structure Session where
  user : String
deriving DecidableEq, Repr

/-- React state of the `Dashboard` component. -/
structure DashState where
  user : Option String
  session : Option Session
  loading : Bool
  fileRefreshTrigger : Nat
deriving DecidableEq, Repr

/-- `useState` initial values of Dashboard.tsx: `user = null`,
`session = null`, `loading = true`, `fileRefreshTrigger = 0`. -/
def initialDashState : DashState :=
  { user := none, session := none, loading := true, fileRefreshTrigger := 0 }

/-- Events that drive the Dashboard state: the `onAuthStateChange` callback,
the resolution of the initial `getSession()` promise, and the
`onUploadComplete` callback passed to `FileUpload`. -/
inductive DashEvent where
  | authChange (session : Option Session)
  | sessionResolved (session : Option Session)
  | uploadComplete
deriving DecidableEq, Repr

/-- Whether an event is the resolution of the initial `getSession()` call —
the only place Dashboard.tsx executes `setLoading(false)`. -/
def DashEvent.isSessionResolved : DashEvent → Bool
  | .sessionResolved _ => true
  | _ => false

/-- One state transition of Dashboard.tsx. `authChange` runs
`setSession(session); setUser(session?.user ?? null)`; `sessionResolved`
does the same and additionally `setLoading(false)`; `uploadComplete` runs
`setFileRefreshTrigger(prev => prev + 1)`. (The `navigate("/auth")` calls
leave this state untouched.) -/
def dashStep (s : DashState) (e : DashEvent) : DashState :=
  match e with
  | .authChange sess =>
      { s with session := sess, user := sess.map Session.user }
  | .sessionResolved sess =>
      { s with session := sess, user := sess.map Session.user, loading := false }
  | .uploadComplete =>
      { s with fileRefreshTrigger := s.fileRefreshTrigger + 1 }

/-- The Dashboard state reached from the initial state by a list of events. -/
def runDash (events : List DashEvent) : DashState :=
  events.foldl dashStep initialDashState

/-- The session-dependent components Dashboard.tsx can mount, with the
principal they receive as a prop. -/
inductive Dependent where
  | fileUpload (user : String)
  | fileList (user : String) (refreshTrigger : Nat)
deriving DecidableEq, Repr

/-- The principal a dependent component was rendered with. -/
def Dependent.principal : Dependent → String
  | .fileUpload u => u
  | .fileList u _ => u

/-- What Dashboard.tsx renders. -/
inductive RenderedView where
  | loadingSpinner
  | dashboard (deps : List Dependent)
deriving DecidableEq, Repr

/-- The render function of Dashboard.tsx restricted to the session gate:
`if (loading) return <spinner/>`; otherwise `FileUpload` and `FileList` are
mounted only under the `user && ...` guards. -/
def renderDashboard (s : DashState) : RenderedView :=
  if s.loading then .loadingSpinner
  else
    .dashboard
      (match s.user with
       | some u => [.fileUpload u, .fileList u s.fileRefreshTrigger]
       | none => [])

/-! ## PasswordManager.tsx : the credential vault view -/

/-- `PasswordFormData` (the `z.infer` of `passwordSchema`): three required
string fields and two optional ones. -/
structure PasswordFormData where
  platform_name : String
  username : String
  password : String
  description : Option String
  token : Option String
deriving DecidableEq, Repr

/-- A zod issue attached to one field: the `min(1, message)` issue with its
custom message, or the default `max(bound)` issue. -/
inductive FieldError where
  | required (message : String)
  | maxLength (bound : Nat)
deriving DecidableEq, Repr

/-- `z.string().min(1, requiredMessage).max(bound)`: zod string length
checks, no trimming anywhere. -/
def checkString (v : String) (requiredMessage : String) (bound : Nat) :
    Option FieldError :=
  if v.length < 1 then some (.required requiredMessage)
  else if bound < v.length then some (.maxLength bound)
  else none

/-- `z.string().max(bound).optional()`: an absent value passes; a present
value is only length-checked. -/
def checkOptionalString (v : Option String) (bound : Nat) : Option FieldError :=
  match v with
  | none => none
  | some s => if bound < s.length then some (.maxLength bound) else none

/-- Per-field validation errors, as exposed by `formState.errors`. -/
structure FieldErrors where
  platform_name : Option FieldError
  username : Option FieldError
  password : Option FieldError
  description : Option FieldError
  token : Option FieldError
deriving DecidableEq, Repr

/-- `passwordSchema` from PasswordManager.tsx, applied to a submission. -/
def passwordSchema (d : PasswordFormData) : FieldErrors :=
  { platform_name :=
      checkString d.platform_name "El nombre de la plataforma es requerido" 100
    username := checkString d.username "El usuario es requerido" 255
    password := checkString d.password "La contraseña es requerida" 500
    description := checkOptionalString d.description 500
    token := checkOptionalString d.token 500 }

/-- Whether the schema accepted the submission (no field has an issue). -/
def schemaAccepts (e : FieldErrors) : Bool :=
  e.platform_name.isNone && e.username.isNone && e.password.isNone &&
    e.description.isNone && e.token.isNone

/-- `data.description || null` (and `data.token || null`) from the insert
branch of `onSubmit`: an absent or empty ('' is falsy) optional field is
normalised to `null`. -/
def orNull : Option String → Option String
  | none => none
  | some s => if s = "" then none else some s

/-- The remote Record Store calls `onSubmit` can issue. -/
inductive RemoteCall where
  | updateCall (payload : PasswordFormData) (id : String)
  | insertCall (platform_name username password : String)
      (description token : Option String) (user_id : String)
deriving DecidableEq, Repr

/-- `onSubmit` from PasswordManager.tsx, as the list of Record Store calls it
issues. `currentUser` is the `supabase.auth.getUser()` result (a missing
user throws before any remote call); `editing` is `editingPassword?.id`.
The update branch sends `data` exactly as entered
(`.update(data).eq("id", editingPassword.id)`); the insert branch builds an
explicit row with `data.description || null` and `data.token || null`. -/
def onSubmit (currentUser : Option String) (editing : Option String)
    (d : PasswordFormData) : List RemoteCall :=
  match currentUser with
  | none => []
  | some uid =>
      match editing with
      | some pid => [.updateCall d pid]
      | none =>
          [.insertCall d.platform_name d.username d.password
            (orNull d.description) (orNull d.token) uid]

/-- Modelled from the spec: the submission pipeline around `onSubmit`. The
gating itself (`handleSubmit(onSubmit)` with `zodResolver(passwordSchema)`
from react-hook-form) is library code not present under src/: per the spec,
validation is performed before any network call and a failing submission is
rejected locally with no remote call made. The schema it gates with is
`passwordSchema` above, taken from the source. -/
def handleFormSubmit (currentUser : Option String) (editing : Option String)
    (d : PasswordFormData) : List RemoteCall :=
  if schemaAccepts (passwordSchema d) then onSubmit currentUser editing d
  else []

/-- A stored credential row (`interface Password` in PasswordManager.tsx). -/
structure Password where
  id : String
  created_at : String
  platform_name : String
  username : String
  password : String
  description : Option String
  token : Option String
deriving DecidableEq, Repr

/-- The local state of PasswordManager.tsx touched by the reveal toggle. -/
structure VaultState where
  passwords : List Password
  visiblePasswords : Finset String
deriving DecidableEq

/-- `togglePasswordVisibility` from PasswordManager.tsx, on the
`visiblePasswords` set: copy the set, then `delete id` if present,
`add id` otherwise. -/
def togglePasswordVisibility (prev : Finset String) (id : String) :
    Finset String :=
  if id ∈ prev then prev.erase id else insert id prev

/-- The effect of `togglePasswordVisibility(id)` on the whole component
state: only `visiblePasswords` is updated. -/
def toggleState (s : VaultState) (id : String) : VaultState :=
  { s with visiblePasswords := togglePasswordVisibility s.visiblePasswords id }

/-- Decimal parse of a digit string; proof machinery used to invert
`Nat.toDigits` when reasoning about the remote keys. -/
def parseDigits (l : List Char) : Nat :=
  l.foldl (fun a c => a * 10 + (c.toNat - 48)) 0

/-- Concrete file entry used to instantiate theorems at sample inputs. -/
def sampleFile : FileItem :=
  { name := "a.pdf", size := 3, created_at := "t", path := "u1/a.pdf"
    category := .documentos }

/-- Concrete valid credential submission used as a sample input. -/
def sampleValidForm : PasswordFormData :=
  { platform_name := "GitHub", username := "user", password := "pw"
    description := none, token := none }

/-- Concrete submission whose platform name is empty. -/
def sampleEmptyForm : PasswordFormData :=
  { platform_name := "", username := "user", password := "pw"
    description := none, token := none }

/-- Concrete submission whose optional fields are empty strings. -/
def sampleEmptyOptForm : PasswordFormData :=
  { platform_name := "GitHub", username := "user", password := "pw"
    description := some "", token := some "" }

end Holdit

namespace Holdit

/-! ## Helper lemmas: decimal rendering of `Date.now()` timestamps -/

theorem toDigitsCore_append (b : Nat) :
    ∀ (fuel n : Nat) (ds : List Char),
      Nat.toDigitsCore b fuel n ds = Nat.toDigitsCore b fuel n [] ++ ds := by
  intro fuel
  induction fuel with
  | zero => intro n ds; simp [Nat.toDigitsCore]
  | succ f ih =>
    intro n ds
    simp only [Nat.toDigitsCore]
    by_cases h : n / b = 0
    · simp [h]
    · simp only [h, if_neg, ite_false]
      rw [ih (n / b) (Nat.digitChar (n % b) :: ds), ih (n / b) [Nat.digitChar (n % b)]]
      simp

theorem toDigitsCore_fuel (b : Nat) (hb : 2 ≤ b) :
    ∀ (n f₁ f₂ : Nat) (ds : List Char), n < f₁ → n < f₂ →
      Nat.toDigitsCore b f₁ n ds = Nat.toDigitsCore b f₂ n ds := by
  intro n
  induction n using Nat.strong_induction_on with
  | _ n ih =>
    intro f₁ f₂ ds h₁ h₂
    cases f₁ with
    | zero => omega
    | succ g₁ =>
      cases f₂ with
      | zero => omega
      | succ g₂ =>
        simp only [Nat.toDigitsCore]
        by_cases h : n / b = 0
        · simp [h]
        · simp only [h, ite_false]
          have hn : 0 < n := by
            rcases Nat.eq_zero_or_pos n with h0 | h0
            · exact absurd (by simp [h0]) h
            · exact h0
          have hdiv : n / b < n := Nat.div_lt_self hn (by omega)
          exact ih (n / b) hdiv g₁ g₂ _ (by omega) (by omega)

theorem toDigits_lt (n : Nat) (h : n < 10) : Nat.toDigits 10 n = [Nat.digitChar n] := by
  simp [Nat.toDigits, Nat.toDigitsCore, Nat.div_eq_of_lt h, Nat.mod_eq_of_lt h]

theorem toDigits_ge (n : Nat) (h : 10 ≤ n) :
    Nat.toDigits 10 n = Nat.toDigits 10 (n / 10) ++ [Nat.digitChar (n % 10)] := by
  have hd : n / 10 ≠ 0 := by omega
  show Nat.toDigitsCore 10 (n + 1) n [] = _
  simp only [Nat.toDigitsCore, hd, ite_false]
  rw [toDigitsCore_append]
  rw [Nat.toDigits]
  congr 1
  exact toDigitsCore_fuel 10 (by omega) (n / 10) n (n / 10 + 1) []
    (Nat.lt_of_lt_of_le (Nat.div_lt_self (by omega) (by omega)) (by omega))
    (Nat.lt_succ_self _)

theorem digitChar_ne_dash (n : Nat) (h : n < 10) : Nat.digitChar n ≠ '-' := by
  interval_cases n <;> decide

theorem digitChar_val (n : Nat) (h : n < 10) : (Nat.digitChar n).toNat - 48 = n := by
  interval_cases n <;> decide

theorem parse_toDigits : ∀ n : Nat, parseDigits (Nat.toDigits 10 n) = n := by
  intro n
  induction n using Nat.strong_induction_on with
  | _ n ih =>
    by_cases h : n < 10
    · rw [toDigits_lt n h]
      show 0 * 10 + ((Nat.digitChar n).toNat - 48) = n
      rw [digitChar_val n h]
      omega
    · have h10 : 10 ≤ n := by omega
      rw [toDigits_ge n h10, parseDigits, List.foldl_append]
      show parseDigits (Nat.toDigits 10 (n / 10)) * 10 + ((Nat.digitChar (n % 10)).toNat - 48) = n
      rw [ih (n / 10) (Nat.div_lt_self (by omega) (by omega)),
        digitChar_val (n % 10) (Nat.mod_lt _ (by omega))]
      omega

theorem toDigits_inj {m n : Nat} (h : Nat.toDigits 10 m = Nat.toDigits 10 n) : m = n := by
  have hm := parse_toDigits m
  rw [h, parse_toDigits] at hm
  exact hm.symm

theorem toDigitsCore_no_dash :
    ∀ (fuel n : Nat) (ds : List Char), (∀ c ∈ ds, c ≠ '-') →
      ∀ c ∈ Nat.toDigitsCore 10 fuel n ds, c ≠ '-' := by
  intro fuel
  induction fuel with
  | zero => intro n ds hds; simpa [Nat.toDigitsCore] using hds
  | succ f ih =>
    intro n ds hds c hc
    have hdig : Nat.digitChar (n % 10) ≠ '-' :=
      digitChar_ne_dash (n % 10) (Nat.mod_lt _ (by omega))
    simp only [Nat.toDigitsCore] at hc
    by_cases h : n / 10 = 0
    · rw [if_pos h] at hc
      rcases List.mem_cons.mp hc with h' | h'
      · rw [h']; exact hdig
      · exact hds c h'
    · rw [if_neg h] at hc
      refine ih (n / 10) _ ?_ c hc
      intro c' hc'
      rcases List.mem_cons.mp hc' with h' | h'
      · rw [h']; exact hdig
      · exact hds c' h'

theorem toDigits_no_dash (n : Nat) : '-' ∉ Nat.toDigits 10 n := by
  intro hmem
  exact toDigitsCore_no_dash (n + 1) n [] (by simp) '-' hmem rfl

theorem append_dash_inj :
    ∀ (l₁ l₂ m₁ m₂ : List Char), '-' ∉ l₁ → '-' ∉ l₂ →
      l₁ ++ '-' :: m₁ = l₂ ++ '-' :: m₂ → l₁ = l₂ ∧ m₁ = m₂ := by
  intro l₁
  induction l₁ with
  | nil =>
    intro l₂ m₁ m₂ h₁ h₂ h
    cases l₂ with
    | nil => simpa using h
    | cons c cs =>
      exfalso
      simp only [List.nil_append, List.cons_append, List.cons.injEq] at h
      exact h₂ (h.1 ▸ List.mem_cons_self c cs)
  | cons a as ih =>
    intro l₂ m₁ m₂ h₁ h₂ h
    cases l₂ with
    | nil =>
      exfalso
      simp only [List.nil_append, List.cons_append, List.cons.injEq] at h
      exact h₁ (h.1 ▸ List.mem_cons_self a as)
    | cons c cs =>
      simp only [List.cons_append, List.cons.injEq] at h
      obtain ⟨hac, htail⟩ := h
      have h₁' : '-' ∉ as := fun hm => h₁ (List.mem_cons_of_mem a hm)
      have h₂' : '-' ∉ cs := fun hm => h₂ (List.mem_cons_of_mem c hm)
      obtain ⟨he, hm⟩ := ih cs m₁ m₂ h₁' h₂' htail
      exact ⟨by rw [hac, he], hm⟩

theorem repr_data (n : Nat) : (Nat.repr n).data = Nat.toDigits 10 n := rfl

/-- Two keys of the same principal agree only if the `Date.now()` samples
rendered into them agree: the decimal timestamp block contains no dash, so
the first dash after the principal prefix delimits it unambiguously. -/
theorem uploadKey_ts_inj {uid n₁ n₂ : String} {t₁ t₂ : Nat}
    (h : uploadKey uid t₁ n₁ = uploadKey uid t₂ n₂) : t₁ = t₂ := by
  have hd : (uploadKey uid t₁ n₁).data = (uploadKey uid t₂ n₂).data := by rw [h]
  simp only [uploadKey, String.data_append, repr_data] at hd
  have hd' : (uid.data ++ ['/']) ++ (Nat.toDigits 10 t₁ ++ '-' :: n₁.data)
      = (uid.data ++ ['/']) ++ (Nat.toDigits 10 t₂ ++ '-' :: n₂.data) := by
    simpa [List.append_assoc] using hd
  have hmid := List.append_cancel_left hd'
  have hsplit := append_dash_inj (Nat.toDigits 10 t₁) (Nat.toDigits 10 t₂) n₁.data n₂.data
    (toDigits_no_dash t₁) (toDigits_no_dash t₂) hmid
  exact toDigits_inj hsplit.1

theorem batchKeys_nodup (uid : String) (files : List BatchFile)
    (h : (files.map Prod.fst).Nodup) : (batchKeys uid files).Nodup := by
  simp only [List.Nodup, List.pairwise_map, batchKeys] at h ⊢
  exact h.imp (fun hne heq => hne (uploadKey_ts_inj heq))

end Holdit

namespace Holdit

/-! ## Helper lemmas: the cached file list under delete -/

theorem filter_ne_path_eq_erase :
    ∀ (files : List FileItem) (file : FileItem),
      (files.map FileItem.path).Nodup → file ∈ files →
      files.filter (fun f => f.path ≠ file.path) = files.erase file := by
  intro files
  induction files with
  | nil => intro file _ hmem; simp at hmem
  | cons a rest ih =>
    intro file hnd hmem
    rw [List.map_cons, List.nodup_cons] at hnd
    obtain ⟨hpa, hnd'⟩ := hnd
    by_cases hpath : a.path = file.path
    · have haf : a = file := by
        rcases List.mem_cons.mp hmem with h | h
        · exact h.symm
        · exact absurd (hpath ▸ List.mem_map_of_mem FileItem.path h) hpa
      subst haf
      rw [List.erase_cons_head]
      rw [List.filter_cons_of_neg (by simp)]
      apply List.filter_eq_self.mpr
      intro b hb
      have hbp : b.path ≠ a.path := by
        intro hb'
        exact hpa (hb' ▸ List.mem_map_of_mem FileItem.path hb)
      simpa using hbp
    · have hne : a ≠ file := fun h => hpath (by rw [h])
      have hmem' : file ∈ rest := by
        rcases List.mem_cons.mp hmem with h | h
        · exact absurd h.symm hne
        · exact h
      rw [List.filter_cons_of_pos (by simpa using fun h => hpath h),
        List.erase_cons_tail (by simpa using hne), ih file hnd' hmem']

theorem count_erase_self (files : List FileItem) (file : FileItem)
    (hmem : file ∈ files) :
    getCategoryCount (files.erase file) file.category + 1
      = getCategoryCount files file.category := by
  have hperm : List.Perm files (file :: files.erase file) := List.perm_cons_erase hmem
  unfold getCategoryCount
  rw [← List.countP_eq_length_filter, ← List.countP_eq_length_filter,
    hperm.countP_eq, List.countP_cons]
  simp

theorem count_erase_other (files : List FileItem) (file : FileItem)
    (hmem : file ∈ files) (c : FileCategory) (hc : c ≠ file.category) :
    getCategoryCount (files.erase file) c = getCategoryCount files c := by
  have hperm : List.Perm files (file :: files.erase file) := List.perm_cons_erase hmem
  unfold getCategoryCount
  rw [← List.countP_eq_length_filter, ← List.countP_eq_length_filter,
    hperm.countP_eq, List.countP_cons]
  have h' : ¬ (file.category = c) := fun h => hc h.symm
  simp [h']

theorem not_mem_erase_self (files : List FileItem) (file : FileItem)
    (hnd : (files.map FileItem.path).Nodup) : file ∉ files.erase file :=
  (hnd.of_map FileItem.path).not_mem_erase

/-! ## Helper lemmas: the upload coordinator -/

theorem handleFiles_submitted (uid : String) (files : List BatchFile)
    (putFails : String → Bool) (hne : files ≠ []) :
    (handleFiles uid true files putFails).puts = batchKeys uid files
    ∧ (handleFiles uid true files putFails).notified
        = !(batchKeys uid files).any putFails
    ∧ (handleFiles uid true files putFails).result
        = if (batchKeys uid files).any putFails then UploadResult.uploadFailed
          else UploadResult.uploaded (batchKeys uid files).length := by
  have hemp : files.isEmpty = false := by
    cases files with
    | nil => exact absurd rfl hne
    | cons a l => rfl
  by_cases h : (batchKeys uid files).any putFails = true
  · refine ⟨?_, ?_, ?_⟩ <;> simp [handleFiles, hemp, h]
  · rw [Bool.not_eq_true] at h
    refine ⟨?_, ?_, ?_⟩ <;> simp [handleFiles, hemp, h]

theorem handleFiles_no_session (uid : String) (files : List BatchFile)
    (putFails : String → Bool) :
    (handleFiles uid false files putFails).puts = []
    ∧ (files ≠ [] → (handleFiles uid false files putFails).result
        = UploadResult.authError) := by
  by_cases hemp : files.isEmpty = true
  · refine ⟨?_, fun hne => ?_⟩
    · simp [handleFiles, hemp]
    · rw [List.isEmpty_iff] at hemp
      exact absurd hemp hne
  · rw [Bool.not_eq_true] at hemp
    exact ⟨by simp [handleFiles, hemp], fun _ => by simp [handleFiles, hemp]⟩

/-! ## Helper lemmas: the session gate -/

theorem loading_preserved (events : List DashEvent) :
    ∀ (s : DashState), (∀ e ∈ events, e.isSessionResolved = false) →
      s.loading = true → (events.foldl dashStep s).loading = true := by
  induction events with
  | nil => intro s _ h; simpa using h
  | cons e rest ih =>
    intro s hev h
    rw [List.foldl_cons]
    refine ih (dashStep s e) (fun e' he' => hev e' (List.mem_cons_of_mem e he')) ?_
    cases e with
    | authChange sess => simpa [dashStep] using h
    | sessionResolved sess =>
        exact absurd (hev _ (List.mem_cons_self _ _)) (by simp [DashEvent.isSessionResolved])
    | uploadComplete => simpa [dashStep] using h

theorem dependents_principal (s : DashState) (deps : List Dependent) (d : Dependent)
    (hrender : renderDashboard s = .dashboard deps) (hd : d ∈ deps) :
    ∃ u : String, s.user = some u ∧ d.principal = u := by
  unfold renderDashboard at hrender
  by_cases hl : s.loading
  · simp [hl] at hrender
  · cases hu : s.user with
    | none =>
        rw [hu] at hrender
        simp [hl] at hrender
        subst hrender
        simp at hd
    | some u =>
        rw [hu] at hrender
        simp [hl] at hrender
        subst hrender
        simp only [List.mem_cons, List.not_mem_nil, or_false] at hd
        rcases hd with rfl | rfl <;> exact ⟨u, rfl, rfl⟩

/-! ## Helper lemmas: the credential vault -/

theorem checkString_none {v msg : String} {bound : Nat}
    (h : checkString v msg bound = none) : 1 ≤ v.length ∧ v.length ≤ bound := by
  unfold checkString at h
  by_cases h1 : v.length < 1
  · rw [if_pos h1] at h; cases h
  · rw [if_neg h1] at h
    by_cases h2 : bound < v.length
    · rw [if_pos h2] at h; cases h
    · exact ⟨by omega, by omega⟩

theorem checkOptionalString_none {v : Option String} {bound : Nat}
    (h : checkOptionalString v bound = none) :
    ∀ s, v = some s → s.length ≤ bound := by
  intro s hs
  subst hs
  simp only [checkOptionalString] at h
  by_cases h2 : bound < s.length
  · rw [if_pos h2] at h; cases h
  · omega

theorem schemaAccepts_bounds (d : PasswordFormData)
    (h : schemaAccepts (passwordSchema d) = true) :
    (1 ≤ d.platform_name.length ∧ d.platform_name.length ≤ 100)
    ∧ (1 ≤ d.username.length ∧ d.username.length ≤ 255)
    ∧ (1 ≤ d.password.length ∧ d.password.length ≤ 500)
    ∧ (∀ s, d.description = some s → s.length ≤ 500)
    ∧ (∀ s, d.token = some s → s.length ≤ 500) := by
  unfold schemaAccepts passwordSchema at h
  simp only [Bool.and_eq_true, Option.isNone_iff_eq_none] at h
  obtain ⟨⟨⟨⟨hp, hu⟩, hw⟩, hdesc⟩, htok⟩ := h
  exact ⟨checkString_none hp, checkString_none hu, checkString_none hw,
    checkOptionalString_none hdesc, checkOptionalString_none htok⟩

end Holdit

namespace Holdit

/-! ## Claim theorems -/

/-- C1 counterexample: in the concrete batch of two files both named
"a.pdf" whose `Date.now()` samples fall in the same millisecond (7), both
submitted puts use the same remote key, so the keys of the batch are not
pairwise distinct as the claim states. -/
theorem duplicate_name_same_millis_keys_collide :
    (handleFiles "u1" true [(7, "a.pdf"), (7, "a.pdf")] (fun _ => false)).puts
        = [uploadKey "u1" 7 "a.pdf", uploadKey "u1" 7 "a.pdf"]
    ∧ ¬ (handleFiles "u1" true [(7, "a.pdf"), (7, "a.pdf")] (fun _ => false)).puts.Nodup := by
  decide

/-- C1 (amended): for every upload batch with a live session, each file's
remote key is synthesized as `uid ++ "/" ++ Nat.repr ts ++ "-" ++ name`
from that file's `Date.now()` sample, and whenever the per-file timestamp
samples are pairwise distinct the resulting remote keys are pairwise
distinct, even when two files of the batch have identical original names. -/
theorem upload_keys_unique_of_distinct_timestamps (uid : String)
    (files : List BatchFile) (putFails : String → Bool)
    (hne : files ≠ []) (hts : (files.map Prod.fst).Nodup) :
    (handleFiles uid true files putFails).puts
        = files.map (fun f => uploadKey uid f.1 f.2)
    ∧ (handleFiles uid true files putFails).puts.Nodup := by
  have hp := (handleFiles_submitted uid files putFails hne).1
  refine ⟨hp, ?_⟩
  rw [hp]
  exact batchKeys_nodup uid files hts

/-- C1 witness: the amended theorem at a concrete two-file batch with
identical names and distinct timestamps. -/
theorem upload_keys_unique_of_distinct_timestamps_witness :
    (handleFiles "u1" true [(5, "a.pdf"), (6, "a.pdf")] (fun _ => false)).puts
        = [(5, "a.pdf"), (6, "a.pdf")].map (fun f => uploadKey "u1" f.1 f.2)
    ∧ (handleFiles "u1" true [(5, "a.pdf"), (6, "a.pdf")] (fun _ => false)).puts.Nodup :=
  upload_keys_unique_of_distinct_timestamps "u1" [(5, "a.pdf"), (6, "a.pdf")]
    (fun _ => false) (by decide) (by decide)

/-- C2 counterexample: a concrete one-file batch whose put fails has its put
submitted and ends in the failure toast, yet `onUploadComplete` is not
invoked, contradicting the claim that the notification is emitted in the
failure case as well. -/
theorem failed_upload_emits_no_notification :
    (handleFiles "u1" true [(0, "a.txt")] (fun _ => true)).puts ≠ []
    ∧ (handleFiles "u1" true [(0, "a.txt")] (fun _ => true)).result
        = UploadResult.uploadFailed
    ∧ (handleFiles "u1" true [(0, "a.txt")] (fun _ => true)).notified = false := by
  decide

/-- C2 (amended): the upload-completed notification is emitted exactly when
the batch is non-empty, a live session exists and every put succeeds — on
failure only the error toast is shown and no notification is emitted — and
when it is emitted, the Dashboard callback increments the File Catalog's
refresh trigger by one. -/
theorem upload_notified_iff_success (uid : String) (hasSession : Bool)
    (files : List BatchFile) (putFails : String → Bool) :
    ((handleFiles uid hasSession files putFails).notified = true
      ↔ files ≠ [] ∧ hasSession = true
          ∧ (batchKeys uid files).any putFails = false)
    ∧ (∀ s : DashState,
        (dashStep s DashEvent.uploadComplete).fileRefreshTrigger
          = s.fileRefreshTrigger + 1) := by
  refine ⟨?_, fun s => rfl⟩
  by_cases hne : files = []
  · subst hne
    simp [handleFiles]
  · cases hasSession with
    | false =>
        have hemp : files.isEmpty = false := by
          cases files with
          | nil => exact absurd rfl hne
          | cons a l => rfl
        simp [handleFiles, hemp]
    | true =>
        rw [(handleFiles_submitted uid files putFails hne).2.1]
        simp [hne]

/-- C2 witness: the amended theorem at a concrete successful batch. -/
theorem upload_notified_iff_success_witness :
    ((handleFiles "u1" true [(5, "a.pdf")] (fun _ => false)).notified = true
      ↔ ([(5, "a.pdf")] : List BatchFile) ≠ [] ∧ true = true
          ∧ (batchKeys "u1" [(5, "a.pdf")]).any (fun _ => false) = false)
    ∧ (∀ s : DashState,
        (dashStep s DashEvent.uploadComplete).fileRefreshTrigger
          = s.fileRefreshTrigger + 1) :=
  upload_notified_iff_success "u1" true [(5, "a.pdf")] (fun _ => false)

/-- C3 counterexample: the submission whose platform name is a single space
is empty after trimming, yet the schema accepts it and the submission
reaches the record store as an insert — the schema's `min(1)` checks raw
length and never trims. -/
theorem whitespace_platform_passes_validation :
    (" " : String).data.all Char.isWhitespace = true
    ∧ schemaAccepts (passwordSchema
        { platform_name := " ", username := "user", password := "pw"
          description := none, token := none }) = true
    ∧ handleFormSubmit (some "uid") none
        { platform_name := " ", username := "user", password := "pw"
          description := none, token := none }
        = [RemoteCall.insertCall " " "user" "pw" none none "uid"] := by
  decide

/-- C3 (amended): every create or update submission is validated locally
before any network call: a required field that is empty (zero length,
without trimming) or any field over its length bound (100/255/500/500/500)
is rejected with a per-field message and zero remote calls, so every
submission that reaches the remote store has required fields of length at
least one (possibly whitespace-only) and all fields within bounds. -/
theorem validation_blocks_remote_calls (u e : Option String)
    (d : PasswordFormData) :
    (schemaAccepts (passwordSchema d) = false → handleFormSubmit u e d = [])
    ∧ (d.platform_name.length = 0 →
        (passwordSchema d).platform_name
            = some (FieldError.required "El nombre de la plataforma es requerido")
          ∧ handleFormSubmit u e d = [])
    ∧ (handleFormSubmit u e d ≠ [] →
        (1 ≤ d.platform_name.length ∧ d.platform_name.length ≤ 100)
        ∧ (1 ≤ d.username.length ∧ d.username.length ≤ 255)
        ∧ (1 ≤ d.password.length ∧ d.password.length ≤ 500)
        ∧ (∀ s, d.description = some s → s.length ≤ 500)
        ∧ (∀ s, d.token = some s → s.length ≤ 500)) := by
  refine ⟨fun h => ?_, fun h0 => ?_, fun hne => ?_⟩
  · simp [handleFormSubmit, h]
  · have hc : checkString d.platform_name "El nombre de la plataforma es requerido" 100
        = some (FieldError.required "El nombre de la plataforma es requerido") := by
      unfold checkString
      rw [if_pos (by omega)]
    exact ⟨hc, by simp [handleFormSubmit, schemaAccepts, passwordSchema, hc]⟩
  · have hacc : schemaAccepts (passwordSchema d) = true := by
      by_contra hfalse
      rw [Bool.not_eq_true] at hfalse
      exact hne (by simp [handleFormSubmit, hfalse])
    exact schemaAccepts_bounds d hacc

/-- C3 witness: the amended theorem at an empty-platform submission (local
rejection with the per-field message, no remote call) and at a valid
submission (bounds hold). -/
theorem validation_blocks_remote_calls_witness :
    ((passwordSchema sampleEmptyForm).platform_name
        = some (FieldError.required "El nombre de la plataforma es requerido")
      ∧ handleFormSubmit (some "uid") none sampleEmptyForm = [])
    ∧ ((1 ≤ sampleValidForm.platform_name.length
          ∧ sampleValidForm.platform_name.length ≤ 100)
      ∧ (1 ≤ sampleValidForm.username.length
          ∧ sampleValidForm.username.length ≤ 255)
      ∧ (1 ≤ sampleValidForm.password.length
          ∧ sampleValidForm.password.length ≤ 500)
      ∧ (∀ s, sampleValidForm.description = some s → s.length ≤ 500)
      ∧ (∀ s, sampleValidForm.token = some s → s.length ≤ 500)) :=
  ⟨(validation_blocks_remote_calls (some "uid") none sampleEmptyForm).2.1 (by decide),
   (validation_blocks_remote_calls (some "uid") none sampleValidForm).2.2 (by decide)⟩

/-- C4: when the remote remove call fails, `handleDelete` leaves the cached
file list completely unchanged and shows the error notification; when it
succeeds and paths in the cache are distinct, exactly the entry with the
deleted object's path is removed from the cached list, with no re-fetch. -/
theorem delete_failure_keeps_cache_success_removes_entry
    (files : List FileItem) (file : FileItem) :
    handleDelete files file true
        = { files := files, notice := DeleteNotice.deleteError }
    ∧ ((files.map FileItem.path).Nodup → file ∈ files →
        handleDelete files file false
          = { files := files.erase file
              notice := DeleteNotice.deleted file.name }) := by
  refine ⟨rfl, fun hnd hmem => ?_⟩
  have h₁ : handleDelete files file false
      = { files := files.filter (fun f => f.path ≠ file.path)
          notice := DeleteNotice.deleted file.name } := rfl
  rw [h₁, filter_ne_path_eq_erase files file hnd hmem]

/-- C4 witness: the theorem at a concrete one-entry cache. -/
theorem delete_failure_keeps_cache_success_removes_entry_witness :
    handleDelete [sampleFile] sampleFile true
        = { files := [sampleFile], notice := DeleteNotice.deleteError }
    ∧ handleDelete [sampleFile] sampleFile false
        = { files := [sampleFile].erase sampleFile
            notice := DeleteNotice.deleted sampleFile.name } :=
  ⟨(delete_failure_keeps_cache_success_removes_entry [sampleFile] sampleFile).1,
   (delete_failure_keeps_cache_success_removes_entry [sampleFile] sampleFile).2
     (by decide) (by decide)⟩

/-- C5: in every state of the session gate, components are only rendered
with a non-null principal: as long as the initial `getSession()` resolution
has not occurred the loading spinner is shown, and whenever the dashboard
body is rendered every dependent component carries the established user. -/
theorem session_gate_renders_no_null_principal (events : List DashEvent) :
    ((∀ e ∈ events, e.isSessionResolved = false) →
      renderDashboard (runDash events) = RenderedView.loadingSpinner)
    ∧ (∀ (s : DashState) (deps : List Dependent) (d : Dependent),
        renderDashboard s = RenderedView.dashboard deps → d ∈ deps →
        ∃ u : String, s.user = some u ∧ d.principal = u) := by
  refine ⟨fun h => ?_, fun s deps d h hd => dependents_principal s deps d h hd⟩
  have hl : (runDash events).loading = true :=
    loading_preserved events initialDashState h rfl
  unfold renderDashboard
  rw [if_pos hl]

/-- C5 witness: an auth-change before the first session resolution still
shows the spinner, and a rendered dependent carries the user. -/
theorem session_gate_renders_no_null_principal_witness :
    renderDashboard (runDash [DashEvent.authChange (some ⟨"u7"⟩)])
        = RenderedView.loadingSpinner
    ∧ ∃ u : String,
        ({ user := some "u7", session := some ⟨"u7"⟩, loading := false
           fileRefreshTrigger := 0 } : DashState).user = some u
          ∧ (Dependent.fileUpload "u7").principal = u :=
  ⟨(session_gate_renders_no_null_principal [DashEvent.authChange (some ⟨"u7"⟩)]).1
     (by decide),
   (session_gate_renders_no_null_principal []).2
     { user := some "u7", session := some ⟨"u7"⟩, loading := false
       fileRefreshTrigger := 0 }
     [Dependent.fileUpload "u7", Dependent.fileList "u7" 0]
     (Dependent.fileUpload "u7") (by decide) (by decide)⟩

/-- C6: the derived category is a pure deterministic function of the
lowercased extension; any extension outside all three fixed tables —
including the audio extensions mp3/wav/ogg/m4a — and a missing extension
map to the document category. -/
theorem category_pure_function_of_lowercased_extension :
    (∀ n₁ n₂ : String, lowerExt n₁ = lowerExt n₂ →
      getFileCategory n₁ = getFileCategory n₂)
    ∧ (∀ name : String,
        imageExtensions.contains (lowerExt name) = false →
        videoExtensions.contains (lowerExt name) = false →
        documentExtensions.contains (lowerExt name) = false →
        getFileCategory name = FileCategory.documentos)
    ∧ getFileCategory "voice.mp3" = FileCategory.documentos
    ∧ getFileCategory "voice.wav" = FileCategory.documentos
    ∧ getFileCategory "voice.ogg" = FileCategory.documentos
    ∧ getFileCategory "voice.m4a" = FileCategory.documentos
    ∧ getFileCategory "README" = FileCategory.documentos
    ∧ getFileCategory "" = FileCategory.documentos := by
  refine ⟨fun n₁ n₂ h => ?_, fun name h1 h2 h3 => ?_, by decide, by decide,
    by decide, by decide, by decide, by decide⟩
  · unfold getFileCategory
    rw [h]
  · have h1' : lowerExt name ∉ imageExtensions := by simpa using h1
    have h2' : lowerExt name ∉ videoExtensions := by simpa using h2
    have h3' : lowerExt name ∉ documentExtensions := by simpa using h3
    simp [getFileCategory, h1', h2', h3']

/-- C6 witness: determinism at a pair of names sharing a lowercased
extension, and the default at an unrecognised extension. -/
theorem category_pure_function_of_lowercased_extension_witness :
    getFileCategory "a.MP3" = getFileCategory "b.mp3"
    ∧ getFileCategory "data.xyz" = FileCategory.documentos :=
  ⟨category_pure_function_of_lowercased_extension.1 "a.MP3" "b.mp3" (by decide),
   category_pure_function_of_lowercased_extension.2.1 "data.xyz"
     (by decide) (by decide) (by decide)⟩

/-- C7: with no live session an upload attempt performs zero puts and, if
the batch is non-empty, terminates with the authentication error; puts are
only ever submitted when the session check succeeded. -/
theorem upload_without_session_fails_fast (uid : String)
    (files : List BatchFile) (putFails : String → Bool) :
    (handleFiles uid false files putFails).puts = []
    ∧ (files ≠ [] →
        (handleFiles uid false files putFails).result = UploadResult.authError)
    ∧ (∀ hasSession : Bool,
        (handleFiles uid hasSession files putFails).puts ≠ [] →
          hasSession = true) := by
  refine ⟨(handleFiles_no_session uid files putFails).1,
    (handleFiles_no_session uid files putFails).2, fun hasSession hp => ?_⟩
  cases hasSession with
  | true => rfl
  | false => exact absurd (handleFiles_no_session uid files putFails).1 hp

/-- C7 witness: the theorem at a concrete one-file batch. -/
theorem upload_without_session_fails_fast_witness :
    (handleFiles "u1" false [(5, "a.pdf")] (fun _ => false)).puts = []
    ∧ (handleFiles "u1" false [(5, "a.pdf")] (fun _ => false)).result
        = UploadResult.authError
    ∧ true = true :=
  ⟨(upload_without_session_fails_fast "u1" [(5, "a.pdf")] (fun _ => false)).1,
   (upload_without_session_fails_fast "u1" [(5, "a.pdf")] (fun _ => false)).2.1
     (by decide),
   (upload_without_session_fails_fast "u1" [(5, "a.pdf")] (fun _ => false)).2.2
     true (by decide)⟩

/-- C8: after a successful delete on a cache with distinct paths, the
deleted entry is absent from the filtered view for every active category
filter, the count of its category drops by exactly one, and the counts of
all other categories are unchanged. -/
theorem delete_updates_filtered_view_and_counts (files : List FileItem)
    (file : FileItem) (hnd : (files.map FileItem.path).Nodup)
    (hmem : file ∈ files) :
    (∀ active : ActiveCategory,
      file ∉ filteredFiles (handleDelete files file false).files active)
    ∧ getCategoryCount (handleDelete files file false).files file.category + 1
        = getCategoryCount files file.category
    ∧ (∀ c : FileCategory, c ≠ file.category →
        getCategoryCount (handleDelete files file false).files c
          = getCategoryCount files c) := by
  have hfe : (handleDelete files file false).files = files.erase file := by
    have h₁ : (handleDelete files file false).files
        = files.filter (fun f => f.path ≠ file.path) := rfl
    rw [h₁, filter_ne_path_eq_erase files file hnd hmem]
  refine ⟨fun active hmem' => ?_, ?_, fun c hc => ?_⟩
  · rw [hfe] at hmem'
    have hin : file ∈ files.erase file := by
      cases active with
      | none => exact hmem'
      | some c => exact List.mem_of_mem_filter hmem'
    exact not_mem_erase_self files file hnd hin
  · rw [hfe]
    exact count_erase_self files file hmem
  · rw [hfe]
    exact count_erase_other files file hmem c hc

/-- C8 witness: the theorem at a concrete one-entry cache. -/
theorem delete_updates_filtered_view_and_counts_witness :
    sampleFile ∉ filteredFiles (handleDelete [sampleFile] sampleFile false).files none
    ∧ getCategoryCount (handleDelete [sampleFile] sampleFile false).files
          sampleFile.category + 1
        = getCategoryCount [sampleFile] sampleFile.category
    ∧ getCategoryCount (handleDelete [sampleFile] sampleFile false).files
          FileCategory.imagenes
        = getCategoryCount [sampleFile] FileCategory.imagenes :=
  ⟨(delete_updates_filtered_view_and_counts [sampleFile] sampleFile
      (by decide) (by decide)).1 none,
   (delete_updates_filtered_view_and_counts [sampleFile] sampleFile
      (by decide) (by decide)).2.1,
   (delete_updates_filtered_view_and_counts [sampleFile] sampleFile
      (by decide) (by decide)).2.2 FileCategory.imagenes (by decide)⟩

/-- C9: the reveal toggle is an involution on the reveal-set, changes
membership only for the toggled record id, and never alters the stored
credential rows. -/
theorem reveal_toggle_involution (s : VaultState) (v : Finset String)
    (id j : String) :
    togglePasswordVisibility (togglePasswordVisibility v id) id = v
    ∧ (j ≠ id → (j ∈ togglePasswordVisibility v id ↔ j ∈ v))
    ∧ (toggleState s id).passwords = s.passwords := by
  refine ⟨?_, fun hj => ?_, rfl⟩
  · unfold togglePasswordVisibility
    by_cases h : id ∈ v
    · rw [if_pos h, if_neg (Finset.not_mem_erase id v), Finset.insert_erase h]
    · rw [if_neg h, if_pos (Finset.mem_insert_self id v), Finset.erase_insert h]
  · unfold togglePasswordVisibility
    by_cases h : id ∈ v
    · rw [if_pos h, Finset.mem_erase]
      simp [hj]
    · rw [if_neg h, Finset.mem_insert]
      simp [hj]

/-- C9 witness: the theorem at a concrete reveal-set and two distinct ids. -/
theorem reveal_toggle_involution_witness :
    togglePasswordVisibility (togglePasswordVisibility ∅ "r1") "r1" = ∅
    ∧ (("r2" ∈ togglePasswordVisibility ∅ "r1") ↔ "r2" ∈ (∅ : Finset String))
    ∧ (toggleState ⟨[], ∅⟩ "r1").passwords = (⟨[], ∅⟩ : VaultState).passwords :=
  ⟨(reveal_toggle_involution ⟨[], ∅⟩ ∅ "r1" "r2").1,
   (reveal_toggle_involution ⟨[], ∅⟩ ∅ "r1" "r2").2.1 (by decide),
   (reveal_toggle_involution ⟨[], ∅⟩ ∅ "r1" "r2").2.2⟩

/-- C10: the empty-string-to-absent normalization of the optional fields is
applied only on create: an update sends the form data verbatim (an empty
string stays an empty string), while an insert maps absent or empty
optional fields to null and keeps non-empty ones unchanged. -/
theorem optional_field_normalization_only_on_create (uid pid : String)
    (d : PasswordFormData) :
    onSubmit (some uid) (some pid) d = [RemoteCall.updateCall d pid]
    ∧ onSubmit (some uid) none d
        = [RemoteCall.insertCall d.platform_name d.username d.password
            (orNull d.description) (orNull d.token) uid]
    ∧ orNull (some "") = none
    ∧ (∀ s : String, s ≠ "" → orNull (some s) = some s) := by
  refine ⟨rfl, rfl, by decide, fun s hs => ?_⟩
  simp [orNull, hs]

/-- C10 witness: the theorem at a submission whose optional fields are empty
strings, plus the non-empty pass-through. -/
theorem optional_field_normalization_only_on_create_witness :
    onSubmit (some "uid") (some "pid") sampleEmptyOptForm
        = [RemoteCall.updateCall sampleEmptyOptForm "pid"]
    ∧ orNull (some "note") = some "note" :=
  ⟨(optional_field_normalization_only_on_create "uid" "pid" sampleEmptyOptForm).1,
   (optional_field_normalization_only_on_create "uid" "pid" sampleEmptyOptForm).2.2.2
     "note" (by decide)⟩

end Holdit
